import Mathlib

/-!
Shallow embedding of the spline-generation core of the GENIE `Generator`
excerpt, covering:

* `src/stdapp/gMakeSplines.cxx` — the `gmkspl` driver (`main`,
  `GetCommandLineArgs`, `GetNeutrinoCodes`, `GetTargetCodes`);
* `src/ReinSehgal/ReinDFRPXSec.cxx` — one concrete algorithm instance
  (`XSec`, `Integral`, `ValidProcess`, `LoadConfig`);
* the configuration store / registry contracts that the excerpt calls into
  (`Registry::GetDoubleDef`, `AlgConfigPool`, recursive sub-algorithm
  resolution), whose implementations are outside the excerpt and are
  therefore modelled from the specification where so marked.

Machine doubles are modelled as real numbers, PDG codes as integers, and
process exits / C `assert` aborts as explicit outcome constructors.
-/

namespace Gmkspl

/-- Observable actions of one `gmkspl` run, in program order: a fatal
diagnostic message, a `GEVGDriver` configuration for one (target, neutrino)
initial state, a `CreateSplines` request for that driver, or the final
`XSecSplineList::SaveAsXml` call. -/
inductive Event where
  | logFatal (msg : String)
  | configureDriver (tgtpdg nupdg : Int)
  | createSplines (tgtpdg nupdg : Int) (nknots : Int) (maxE : Rat)
  | saveXml (file : String)
  deriving DecidableEq, Repr

/-- Result of a run: the events it emitted, in order, and the process exit
status (`0` on normal completion). -/
structure MainOutcome where
  events   : List Event
  exitCode : Int
  deriving DecidableEq, Repr

/-- Raw command line: for each recognised option letter of `gmkspl`,
whether it was supplied and with which value.  `CmdLineArgAsInt` /
`CmdLineArgAsDouble` successes are modelled as already-converted values. -/
structure CmdArgs where
  optO : Option String
  optN : Option Int
  optE : Option Rat
  optP : Option String
  optT : Option String
  optF : Option String
  deriving DecidableEq, Repr

/-- The option record `GetCommandLineArgs` leaves in the globals
`gOptXMLFilename`, `gOptNKnots`, `gOptMaxE`, `gOptNuPdgCodeList`,
`gOptTgtPdgCodeList`, `gOptGeomFilename`. -/
structure Opts where
  xmlFile  : String
  nknots   : Int
  maxE     : Rat
  nuList   : String
  tgtList  : String
  geomFile : String
  deriving DecidableEq, Repr

/-- The three `exit(1)` sites of `GetCommandLineArgs`, tagged by which
diagnostic they print. -/
inductive ParseExit where
  | noProbe
  | noTargetSource
  | bothTargetSources
  deriving DecidableEq, Repr

/-- Default output file name (`kDefOptXMLFilename`). -/
def kDefOptXMLFilename : String := "xsec_splines.xml"

/-- Embedding of `GetCommandLineArgs` (gMakeSplines.cxx:177-276).  Each
missing optional argument takes the documented default.  The two flags
`tgt_cmd` and `tgt_geom` start `true`; the catch handler for a missing `-t`
sets `tgt_cmd := false`, and the catch handler for a missing `-f` ALSO sets
`tgt_cmd := false` (source line 255 assigns `tgt_cmd`, not `tgt_geom`).
Then `none` is tested before `both`, each exiting with status 1. -/
def getCommandLineArgs (args : CmdArgs) : Except ParseExit Opts :=
  let xmlFile := args.optO.getD kDefOptXMLFilename
  let nknots  := args.optN.getD (-1)
  let maxE    := args.optE.getD (-1)
  match args.optP with
  | none => .error .noProbe
  | some nuList =>
    let tgtCmd0 := true
    let tgtList := args.optT.getD ""
    let tgtCmd1 := match args.optT with
      | some _ => tgtCmd0
      | none   => false
    let tgtGeom := true
    let geomFile := args.optF.getD ""
    let tgtCmd2 := match args.optF with
      | some _ => tgtCmd1
      | none   => false
    let bothFlag := tgtGeom && tgtCmd2
    let noneFlag := !tgtGeom && !tgtCmd2
    if noneFlag then .error .noTargetSource
    else if bothFlag then .error .bothTargetSources
    else .ok ⟨xmlFile, nknots, maxE, nuList, tgtList, geomFile⟩

/-- Leading decimal digits of a character list, C `atoi` style: consume
digits into the accumulator, stop at the first non-digit. -/
def atoiDigits : List Char → Nat → Nat
  | [], acc => acc
  | c :: rest, acc =>
    if c.isDigit then atoiDigits rest (10 * acc + (c.toNat - 48)) else acc

/-- Embedding of C `atoi` on the inputs that occur here: an optional minus
sign followed by decimal digits; anything unparsable yields 0. -/
def atoiChars : List Char → Int
  | '-' :: rest => -(atoiDigits rest 0 : Int)
  | cs => (atoiDigits cs 0 : Int)

/-- Modelled from the spec: `genie::utils::str::Split` (Utils/StringUtils)
is repository code outside the excerpt; it splits a string on each
occurrence of the delimiter, here fixed to a comma. -/
def splitCommas : List Char → List (List Char)
  | [] => [[]]
  | c :: rest =>
    match splitCommas rest with
    | [] => if c = ',' then [[], []] else [[c]]
    | g :: gs => if c = ',' then [] :: g :: gs else (c :: g) :: gs

/-- Embedding of `GetNeutrinoCodes` (gMakeSplines.cxx:286-298): split the
comma separated list and convert each piece with `atoi`.  It always returns
a list object (never a null pointer). -/
def getNeutrinoCodes (nuList : String) : List Int :=
  (splitCommas nuList.data).map atoiChars

/-- Embedding of `GetTargetCodes` (gMakeSplines.cxx:300-329): prefer the
command-line list when its string is non-empty, otherwise consult the
geometry analyzer when a geometry file name is set, otherwise return the
null pointer (`none`).  The ROOT geometry analyzer is outside the excerpt
and enters as the function `geomNuclei` from file name to nuclei list. -/
def getTargetCodes (geomNuclei : String → List Int)
    (tgtList geomFile : String) : Option (List Int) :=
  if tgtList.data.length > 0 then
    some ((splitCommas tgtList.data).map atoiChars)
  else if geomFile.data.length > 0 then
    some (geomNuclei geomFile)
  else
    none

/-- The body of the nested loop of `main` (gMakeSplines.cxx:149-162): for
each neutrino, for each target, configure a driver on that initial state
and request its splines. -/
def pairLoopEvents (neutrinos targets : List Int) (nknots : Int)
    (maxE : Rat) : List Event :=
  neutrinos.flatMap fun nupdg =>
    targets.flatMap fun tgtpdg =>
      [Event.configureDriver tgtpdg nupdg,
       Event.createSplines tgtpdg nupdg nknots maxE]

/-- Embedding of `main` after argument parsing (gMakeSplines.cxx:125-175),
consuming the results of `GetNeutrinoCodes` and `GetTargetCodes` (a null
pointer is `none`): a null or empty neutrino list exits with status 2, then
a null or empty target list exits with status 3, each before the pair loop;
otherwise the loop runs and `SaveAsXml` is called once afterwards. -/
def mainAfterParse (neutrinos targets : Option (List Int))
    (nknots : Int) (maxE : Rat) (xmlFile : String) : MainOutcome :=
  if neutrinos.getD [] = [] then
    ⟨[.logFatal "Empty neutrino PDG code list"], 2⟩
  else if targets.getD [] = [] then
    ⟨[.logFatal "Empty target PDG code list"], 3⟩
  else
    ⟨pairLoopEvents (neutrinos.getD []) (targets.getD []) nknots maxE
       ++ [.saveXml xmlFile], 0⟩

/-- Embedding of the whole `gmkspl` process: parse the command line (an
`exit(1)` there is status 1), then run `main`'s spline-building part. -/
def gmkspl (geomNuclei : String → List Int) (args : CmdArgs) : MainOutcome :=
  match getCommandLineArgs args with
  | .error _ => ⟨[.logFatal "command line rejected"], 1⟩
  | .ok opts =>
    mainAfterParse (some (getNeutrinoCodes opts.nuList))
      (getTargetCodes geomNuclei opts.tgtList opts.geomFile)
      opts.nknots opts.maxE opts.xmlFile

/-- Recogniser for spline-build events. -/
def Event.isBuild : Event → Bool
  | .createSplines _ _ _ _ => true
  | _ => false

/-- Recogniser for the save event. -/
def Event.isSave : Event → Bool
  | .saveXml _ => true
  | _ => false

/-- One inner-loop pass emits no save event. -/
lemma innerLoop_no_save (ts : List Int) (n k : Int) (m : Rat) :
    ((ts.flatMap fun tg =>
        [Event.configureDriver tg n, Event.createSplines tg n k m]).filter
      Event.isSave) = [] := by
  induction ts with
  | nil => simp
  | cons tg ts ih =>
    simp [List.flatMap_cons, List.filter_append, ih, Event.isSave]

/-- The pair loop emits no save event. -/
lemma pairLoopEvents_no_save (ns ts : List Int) (k : Int) (m : Rat) :
    (pairLoopEvents ns ts k m).filter Event.isSave = [] := by
  unfold pairLoopEvents
  induction ns with
  | nil => simp
  | cons n ns ih =>
    rw [List.flatMap_cons, List.filter_append, ih, innerLoop_no_save]
    rfl

/-- The pair loop emits no fatal diagnostic and no events other than
driver configuration and spline creation; in particular how many build
events it contains for a given (target, neutrino) pair: one per occurrence
of the neutrino in the probe list times occurrences of the target in the
target list (inner loop step). -/
lemma innerLoop_count_build (ts : List Int) (n p t : Int) (k : Int) (m : Rat) :
    ((ts.flatMap fun tg =>
        [Event.configureDriver tg n, Event.createSplines tg n k m]).count
      (Event.createSplines t p k m))
      = if n = p then ts.count t else 0 := by
  induction ts with
  | nil => simp
  | cons tg ts ih =>
    simp only [List.flatMap_cons, List.count_append, ih, List.count_cons,
      List.count_nil]
    by_cases hnp : n = p
    · by_cases htt : tg = t
      · subst hnp; subst htt; simp; omega
      · subst hnp
        have h1 : (Event.createSplines tg n k m == Event.createSplines t n k m)
            = false := by
          simp [htt]
        simp [htt, h1, Ne.symm htt]
    · have h1 : (Event.createSplines tg n k m == Event.createSplines t p k m)
          = false := by
        simp [hnp]
      have h2 : (Event.configureDriver tg n == Event.createSplines t p k m)
          = false := by
        simp
      simp [hnp, h1, h2]

/-- Build-event count of the whole pair loop. -/
lemma pairLoopEvents_count_build (ns ts : List Int) (p t : Int) (k : Int)
    (m : Rat) :
    ((pairLoopEvents ns ts k m).count (Event.createSplines t p k m))
      = ns.count p * ts.count t := by
  induction ns with
  | nil => simp [pairLoopEvents]
  | cons n ns ih =>
    simp only [pairLoopEvents, List.flatMap_cons, List.count_append,
      List.count_cons] at *
    rw [ih, innerLoop_count_build]
    by_cases hnp : n = p
    · subst hnp; simp [Nat.add_mul, Nat.add_comm]
    · have : (n == p) = false := by simp [hnp]
      simp [hnp, this]

/-- C1: if the parsed neutrino list or the parsed target list is null or
empty, `main` exits with a non-zero status (2 resp. 3), prints a fatal
diagnostic, and emits no spline-build event: it never proceeds as a silent
no-op. -/
theorem C1_empty_input_aborts_before_build
    (neutrinos targets : Option (List Int)) (nknots : Int) (maxE : Rat)
    (xml : String)
    (h : neutrinos.getD [] = [] ∨ targets.getD [] = []) :
    (mainAfterParse neutrinos targets nknots maxE xml).exitCode ≠ 0 ∧
    (∃ msg, Event.logFatal msg ∈
      (mainAfterParse neutrinos targets nknots maxE xml).events) ∧
    (∀ e ∈ (mainAfterParse neutrinos targets nknots maxE xml).events,
      e.isBuild = false) := by
  by_cases h1 : neutrinos.getD [] = []
  · refine ⟨?_, ⟨"Empty neutrino PDG code list", ?_⟩, ?_⟩ <;>
      simp [mainAfterParse, h1, Event.isBuild]
  · have h2 : targets.getD [] = [] := h.resolve_left h1
    refine ⟨?_, ⟨"Empty target PDG code list", ?_⟩, ?_⟩ <;>
      simp [mainAfterParse, h1, h2, Event.isBuild]

/-- Witness for C1 at a concrete input: an empty target list with a
non-empty probe list. -/
theorem C1_empty_input_aborts_before_build_witness :
    (mainAfterParse (some [14]) (some []) (-1) (-1) "out.xml").exitCode ≠ 0 ∧
    (∃ msg, Event.logFatal msg ∈
      (mainAfterParse (some [14]) (some []) (-1) (-1) "out.xml").events) ∧
    (∀ e ∈ (mainAfterParse (some [14]) (some []) (-1) (-1) "out.xml").events,
      e.isBuild = false) :=
  C1_empty_input_aborts_before_build (some [14]) (some []) (-1) (-1) "out.xml"
    (Or.inr rfl)

/-- C2 (failing input): with a probe list supplied but neither `-t` nor
`-f`, `GetCommandLineArgs` returns normally instead of exiting: its `none`
rejection branch is dead, because the handler for a missing `-f` clears
`tgt_cmd` rather than `tgt_geom`.  The claim says this case is rejected
inside `GetCommandLineArgs` with a fatal diagnostic. -/
theorem C2_no_target_source_accepted_by_arg_parsing :
    getCommandLineArgs ⟨none, none, none, some "14", none, none⟩ =
      .ok ⟨kDefOptXMLFilename, -1, -1, "14", "", ""⟩ := rfl

/-- C4: in every run that passes input validation, the pair loop emits one
spline-build request per occurrence of the probe in the probe list times
occurrences of the target in the target list — for duplicate-free lists,
exactly one request per (probe, target) pair. -/
theorem C4_every_pair_built_once (neutrinos targets : List Int)
    (nknots : Int) (maxE : Rat) (xml : String)
    (hn : neutrinos ≠ []) (ht : targets ≠ []) (p t : Int) :
    ((mainAfterParse (some neutrinos) (some targets) nknots maxE xml).events.count
        (Event.createSplines t p nknots maxE))
      = neutrinos.count p * targets.count t := by
  simp only [mainAfterParse, Option.getD_some, if_neg hn, if_neg ht,
    List.count_append]
  rw [pairLoopEvents_count_build]
  simp

/-- Witness for C4, the spec scenario: probes {14, -14}, single target
iron (1000260560) — the build for that target is requested exactly twice,
once per probe. -/
theorem C4_every_pair_built_once_witness :
    ((mainAfterParse (some [14, -14]) (some [1000260560]) 30 100
        "out.xml").events.count (Event.createSplines 1000260560 14 30 100)) = 1 ∧
    ((mainAfterParse (some [14, -14]) (some [1000260560]) 30 100
        "out.xml").events.count (Event.createSplines 1000260560 (-14) 30 100)) = 1 :=
  ⟨(C4_every_pair_built_once [14, -14] [1000260560] 30 100 "out.xml"
      (by decide) (by decide) 14 1000260560).trans (by decide),
   (C4_every_pair_built_once [14, -14] [1000260560] 30 100 "out.xml"
      (by decide) (by decide) (-14) 1000260560).trans (by decide)⟩

/-- C8: in every run that passes input validation, `SaveAsXml` happens
exactly once, and it is the final event — strictly after every build of
the pair loop, never before or during it. -/
theorem C8_save_exactly_once_after_loop
    (neutrinos targets : Option (List Int)) (nknots : Int) (maxE : Rat)
    (xml : String)
    (hn : neutrinos.getD [] ≠ []) (ht : targets.getD [] ≠ []) :
    ((mainAfterParse neutrinos targets nknots maxE xml).events.filter
        Event.isSave).length = 1 ∧
    (mainAfterParse neutrinos targets nknots maxE xml).events.getLast?
      = some (Event.saveXml xml) := by
  simp only [mainAfterParse, if_neg hn, if_neg ht]
  constructor
  · rw [List.filter_append, pairLoopEvents_no_save]
    simp [Event.isSave]
  · simp

/-- Witness for C8 at a concrete input. -/
theorem C8_save_exactly_once_after_loop_witness :
    ((mainAfterParse (some [14]) (some [1000260560]) (-1) (-1)
        "out.xml").events.filter Event.isSave).length = 1 ∧
    (mainAfterParse (some [14]) (some [1000260560]) (-1) (-1)
        "out.xml").events.getLast? = some (Event.saveXml "out.xml") :=
  C8_save_exactly_once_after_loop (some [14]) (some [1000260560]) (-1) (-1)
    "out.xml" (by decide) (by decide)

/-- C9: the `none` rejection branch of `GetCommandLineArgs` is unreachable
for every command line, because the missing-`-f` handler clears `tgt_cmd`
rather than `tgt_geom`; a run with no target source instead terminates
later with exit status 3, from `main`'s empty-target check, after
`GetTargetCodes` returns the null pointer. -/
theorem C9_none_branch_dead_and_exit3 :
    (∀ args : CmdArgs, getCommandLineArgs args ≠ .error .noTargetSource) ∧
    (∀ geomNuclei : String → List Int,
      getTargetCodes geomNuclei "" "" = none ∧
      (gmkspl geomNuclei ⟨none, none, none, some "14", none, none⟩).exitCode
        = 3) := by
  constructor
  · intro args h
    obtain ⟨o, n, e, p, t, f⟩ := args
    cases p <;> cases t <;> cases f <;> simp [getCommandLineArgs] at h
  · intro geomNuclei
    exact ⟨rfl, rfl⟩

end Gmkspl

namespace ConfigModel

/-- One named configuration set: an ordered mapping from parameter name to
a scalar value; the scalar type is a parameter of the model. -/
structure ConfigSet (α : Type) where
  entries : List (String × α)

/-- Lookup of a key inside one set (first binding wins). -/
def ConfigSet.find {α : Type} (c : ConfigSet α) (key : String) : Option α :=
  c.entries.lookup key

/-- The configuration store: named scoped entries plus the distinguished
global entry. -/
structure ConfigStore (α : Type) where
  scopes : List (String × ConfigSet α)
  global : ConfigSet α

/-- Failure mode of a configuration lookup. -/
inductive ConfigError where
  | configMissing
  deriving DecidableEq, Repr

/-- The scoped half of a lookup: the key searched in the entry named
`scope` (a missing scope reads as a missing key). -/
def ConfigStore.scopedFind {α : Type} (st : ConfigStore α)
    (scope key : String) : Option α :=
  (st.scopes.lookup scope).bind fun c => c.find key

/-- Modelled from the spec: the implementations of `Registry::GetDoubleDef`
and `AlgConfigPool::GlobalParameterList` called by
`ReinDFRPXSec::LoadConfig` are not under `src/`; per the ConfigStore
contract, `get(scopeName, key)` first looks `key` up in the entry named
`scopeName`, falls back to the global entry when absent, and fails with
ConfigMissing only when the key is absent from both. -/
def ConfigStore.get {α : Type} (st : ConfigStore α) (scope key : String) :
    Except ConfigError α :=
  match st.scopedFind scope key with
  | some v => .ok v
  | none =>
    match st.global.find key with
    | some v => .ok v
    | none => .error .configMissing

/-- C3: a configuration lookup returns the scoped value when the key is
present in the scoped entry; when absent there it returns the global value
instead of failing; and it fails with ConfigMissing exactly when the key is
absent from both the scoped and the global entry. -/
theorem C3_scoped_lookup_falls_back_to_global {α : Type} (st : ConfigStore α)
    (scope key : String) :
    (∀ v, st.scopedFind scope key = some v → st.get scope key = .ok v) ∧
    (st.scopedFind scope key = none →
      ∀ v, st.global.find key = some v → st.get scope key = .ok v) ∧
    (st.get scope key = .error .configMissing ↔
      st.scopedFind scope key = none ∧ st.global.find key = none) := by
  refine ⟨?_, ?_, ?_⟩
  · intro v hv
    simp [ConfigStore.get, hv]
  · intro hn v hv
    simp [ConfigStore.get, hn, hv]
  · constructor
    · intro h
      unfold ConfigStore.get at h
      cases hs : st.scopedFind scope key with
      | some v => rw [hs] at h; exact Except.noConfusion h
      | none =>
        rw [hs] at h
        cases hg : st.global.find key with
        | some v => rw [hg] at h; exact Except.noConfusion h
        | none => exact ⟨rfl, rfl⟩
    · intro ⟨hs, hg⟩
      simp [ConfigStore.get, hs, hg]

/-- Witness for C3: a store whose scoped entry for the algorithm lacks the
key while the global entry carries it — the lookup falls back and returns
the global value — and a store where the scoped entry carries the key —
the scoped value wins. -/
theorem C3_scoped_lookup_falls_back_to_global_witness :
    (ConfigStore.get (α := Int)
        ⟨[("genie::ReinDFRPXSec", ⟨[]⟩)], ⟨[("DFR-Ma", 104)]⟩⟩
        "genie::ReinDFRPXSec" "DFR-Ma" = .ok 104) ∧
    (ConfigStore.get (α := Int)
        ⟨[("genie::ReinDFRPXSec", ⟨[("DFR-Ma", 95)]⟩)], ⟨[("DFR-Ma", 104)]⟩⟩
        "genie::ReinDFRPXSec" "DFR-Ma" = .ok 95) :=
  ⟨(C3_scoped_lookup_falls_back_to_global
      ⟨[("genie::ReinDFRPXSec", ⟨[]⟩)], ⟨[("DFR-Ma", 104)]⟩⟩
      "genie::ReinDFRPXSec" "DFR-Ma").2.1 rfl 104 rfl,
   (C3_scoped_lookup_falls_back_to_global
      ⟨[("genie::ReinDFRPXSec", ⟨[("DFR-Ma", 95)]⟩)], ⟨[("DFR-Ma", 104)]⟩⟩
      "genie::ReinDFRPXSec" "DFR-Ma").1 95 rfl⟩

end ConfigModel

namespace AlgRegistry

/-- Failure modes of sub-instance resolution. -/
inductive ResolveError where
  | cyclicDependency
  | unknownAlgorithm
  deriving DecidableEq, Repr

/-- Adding the current key to the in-progress marker strictly shrinks the
set of known keys not yet in progress. -/
lemma length_filter_cons_lt (allKeys inProgress : List String) (k : String)
    (hk : k ∈ allKeys) (hnp : k ∉ inProgress) :
    (allKeys.filter fun x => decide (x ∉ k :: inProgress)).length <
      (allKeys.filter fun x => decide (x ∉ inProgress)).length := by
  have hpq : ∀ a ∈ allKeys,
      (decide (a ∉ k :: inProgress) : Bool)
        = (decide (a ∉ k :: inProgress) && decide (a ∉ inProgress)) := by
    intro a _
    by_cases hp : a ∈ k :: inProgress
    · simp [hp]
    · have hq : a ∉ inProgress := fun h => hp (List.mem_cons_of_mem _ h)
      simp [hp, hq]
  have hsub : (allKeys.filter fun x => decide (x ∉ k :: inProgress)) =
      ((allKeys.filter fun x => decide (x ∉ inProgress)).filter
        fun x => decide (x ∉ k :: inProgress)) := by
    rw [List.filter_filter]
    exact List.filter_congr hpq
  set l2 := allKeys.filter fun x => decide (x ∉ inProgress) with hl2
  have hk2 : k ∈ l2 := by
    rw [hl2]
    exact List.mem_filter.2 ⟨hk, by simpa using hnp⟩
  have hss : List.Sublist (l2.filter fun x => decide (x ∉ k :: inProgress)) l2 :=
    List.filter_sublist l2
  rw [hsub]
  rcases Nat.lt_or_ge
      ((l2.filter fun x => decide (x ∉ k :: inProgress)).length) l2.length with
    h | h
  · exact h
  · exfalso
    have heq := List.Sublist.eq_of_length hss
      (Nat.le_antisymm (List.Sublist.length_le hss) h)
    have hkf : k ∈ l2.filter fun x => decide (x ∉ k :: inProgress) := by
      rw [heq]; exact hk2
    have := (List.mem_filter.1 hkf).2
    simp at this

/-- Modelled from the spec: the recursive sub-instance resolution of the
AlgorithmRegistry (`AlgFactory` / `Algorithm::SubAlg`) is not under
`src/`.  Per the registry contract, resolution keeps an in-progress marker
per key: a key met while already in progress fails with CyclicDependency,
a name outside the known-algorithm table fails with UnknownAlgorithm, and
otherwise each of the key's declared sub-instances is resolved recursively
before the key completes.  `resolveAll` drains a worklist of keys under a
given in-progress marker; the in-progress marker bounds the recursion
depth by the number of known keys, which is what makes the function total
(the termination half of the claim). -/
def resolveAll (deps : String → List String) (allKeys : List String)
    (inProgress : List String) (keys : List String) :
    Except ResolveError Unit :=
  match keys with
  | [] => .ok ()
  | k :: rest =>
    if hmem : k ∈ inProgress then .error .cyclicDependency
    else if hk : k ∈ allKeys then
      match resolveAll deps allKeys (k :: inProgress) (deps k) with
      | .error e => .error e
      | .ok _ => resolveAll deps allKeys inProgress rest
    else .error .unknownAlgorithm
termination_by
  ((allKeys.filter fun x => decide (x ∉ inProgress)).length, keys.length)
decreasing_by
  · exact Prod.Lex.left _ _ (length_filter_cons_lt allKeys inProgress k hk hmem)
  · exact Prod.Lex.right _ (Nat.lt_succ_self rest.length)

/-- Resolution of a single root key with an empty in-progress marker. -/
def resolve (deps : String → List String) (allKeys : List String)
    (root : String) : Except ResolveError Unit :=
  resolveAll deps allKeys [] [root]

/-- Reflexive-transitive dependency reachability over the sub-instance
declaration table. -/
inductive Reaches (deps : String → List String) : String → String → Prop
  | refl (a : String) : Reaches deps a a
  | head {a b c : String} : b ∈ deps a → Reaches deps b c → Reaches deps a c

/-- A key `a` directly or transitively depends on `c`: at least one
declaration edge is taken. -/
def DependsOn (deps : String → List String) (a c : String) : Prop :=
  ∃ b ∈ deps a, Reaches deps b c

/-- Inversion for `Reaches`. -/
lemma Reaches.cases_head {deps : String → List String} {a c : String}
    (h : Reaches deps a c) : c = a ∨ ∃ b ∈ deps a, Reaches deps b c := by
  cases h with
  | refl => exact Or.inl rfl
  | head hd ht => exact Or.inr ⟨_, hd, ht⟩

/-- Successful resolution certifies that nothing reachable from the
worklist is in progress or lies on a dependency cycle. -/
lemma resolveAll_ok_no_cycle (deps : String → List String)
    (allKeys : List String) :
    ∀ inProgress keys,
      resolveAll deps allKeys inProgress keys = .ok () →
      ∀ k ∈ keys, ∀ b, Reaches deps k b →
        b ∉ inProgress ∧ ¬ DependsOn deps b b := by
  intro inProgress keys
  induction inProgress, keys using resolveAll.induct deps allKeys with
  | case1 inProgress =>
    intro _ k hk
    exact absurd hk (List.not_mem_nil k)
  | case2 inProgress k rest hmem =>
    intro h
    exact absurd h (by simp [resolveAll, hmem])
  | case3 inProgress k rest hmem hk e hcall =>
    intro h
    rw [resolveAll, dif_neg hmem, dif_pos hk, hcall] at h
    exact Except.noConfusion h
  | case4 inProgress k rest hmem hk u hcall ih1 ih2 =>
    intro h j hj b hreach
    rw [resolveAll, dif_neg hmem, dif_pos hk, hcall] at h
    cases u
    rcases List.mem_cons.1 hj with hjk | hjr
    · subst hjk
      rcases Reaches.cases_head hreach with hbk | ⟨d, hd, htail⟩
      · subst hbk
        refine ⟨hmem, ?_⟩
        rintro ⟨d, hd, hdk⟩
        exact (ih1 hcall d hd _ hdk).1 (List.mem_cons_self _ inProgress)
      · have h2 := ih1 hcall d hd b htail
        exact ⟨fun hb => h2.1 (List.mem_cons_of_mem _ hb), h2.2⟩
    · exact ih2 h j hjr b hreach
  | case5 inProgress k rest hmem hk =>
    intro h
    rw [resolveAll, dif_neg hmem, dif_neg hk] at h
    exact Except.noConfusion h

/-- When the known-key table is closed under declared dependencies and the
worklist is known, resolution never fails with UnknownAlgorithm. -/
lemma resolveAll_no_unknown (deps : String → List String)
    (allKeys : List String)
    (hcl : ∀ a ∈ allKeys, ∀ b ∈ deps a, b ∈ allKeys) :
    ∀ inProgress keys, (∀ k ∈ keys, k ∈ allKeys) →
      resolveAll deps allKeys inProgress keys ≠ .error .unknownAlgorithm := by
  intro inProgress keys
  induction inProgress, keys using resolveAll.induct deps allKeys with
  | case1 inProgress =>
    intro _ h
    rw [resolveAll] at h
    exact Except.noConfusion h
  | case2 inProgress k rest hmem =>
    intro _ h
    rw [resolveAll, dif_pos hmem] at h
    injection h with h'
    exact ResolveError.noConfusion h'
  | case3 inProgress k rest hmem hk e hcall ih1 =>
    intro hin h
    rw [resolveAll, dif_neg hmem, dif_pos hk, hcall] at h
    injection h with h'
    subst h'
    exact ih1 (fun d hd => hcl k hk d hd) hcall
  | case4 inProgress k rest hmem hk u hcall ih1 ih2 =>
    intro hin h
    rw [resolveAll, dif_neg hmem, dif_pos hk, hcall] at h
    exact ih2 (fun j hj => hin j (List.mem_cons_of_mem _ hj)) h
  | case5 inProgress k rest hmem hk =>
    intro hin _
    exact hk (hin k (List.mem_cons_self k rest))

/-- C6: for every dependency table whose known keys are closed under
declared sub-instances, if the root key directly or transitively depends
on itself then resolution — which always terminates, being a total
function — rejects the configuration with CyclicDependency. -/
theorem C6_cyclic_resolution_rejected (deps : String → List String)
    (allKeys : List String) (root : String)
    (hroot : root ∈ allKeys)
    (hcl : ∀ a ∈ allKeys, ∀ b ∈ deps a, b ∈ allKeys)
    (hcyc : DependsOn deps root root) :
    resolve deps allKeys root = .error .cyclicDependency := by
  cases hres : resolve deps allKeys root with
  | ok u =>
    cases u
    exfalso
    have := resolveAll_ok_no_cycle deps allKeys [] [root] hres root
      (List.mem_cons_self root []) root (Reaches.refl root)
    exact this.2 hcyc
  | error e =>
    cases e with
    | cyclicDependency => rfl
    | unknownAlgorithm =>
      exact absurd hres
        (resolveAll_no_unknown deps allKeys hcl [] [root]
          (by intro k hk; rcases List.mem_cons.1 hk with rfl | h
              · exact hroot
              · exact absurd h (List.not_mem_nil k)))

/-- Dependency table of the spec scenario: `A` depends on `B` and `B`
depends on `A`. -/
def cyclicDeps : String → List String := fun k =>
  if k = "A" then ["B"] else if k = "B" then ["A"] else []

/-- Witness for C6, the spec scenario: A depends on B depends on A is
rejected with CyclicDependency. -/
theorem C6_cyclic_resolution_rejected_witness :
    resolve cyclicDeps ["A", "B"] "A" = .error .cyclicDependency :=
  C6_cyclic_resolution_rejected cyclicDeps ["A", "B"] "A" (by decide)
    (by decide)
    ⟨"B", by decide, Reaches.head (by decide : "A" ∈ cyclicDeps "B")
      (Reaches.refl "A")⟩

end AlgRegistry

namespace ReinSehgal

/-- Kinematic phase spaces as far as `XSec` distinguishes them: the native
space {x, y, t; E} (`kPSxytfE`) and any other, reached through a Jacobian
transformation. -/
inductive KinePhaseSpace where
  | xytfE
  | other (tag : Nat)
  deriving DecidableEq, Repr

/-- The target fields `XSec` reads: `HitNucMass()`, `HitNucPdg()`, `Z()`
and `N()`. -/
structure Target where
  hitNucMass   : ℝ
  hitNucPdg    : Int
  protonCount  : Int
  neutronCount : Int

/-- The interaction fields read by `ValidProcess`, `XSec` and `Integral`.
`validKinematics` stands for the base-class check
`XSecAlgorithmI::ValidKinematics`, whose implementation is not under
`src/`; the two `TestBit` flags and `ProcInfo().IsDiffractive()` are the
bits `ValidProcess` and `XSec` test. -/
structure Interaction where
  skipProcChk       : Bool
  isDiffractive     : Bool
  assumeFreeNucleon : Bool
  validKinematics   : Bool
  probeE : ℝ
  x : ℝ
  y : ℝ
  t : ℝ
  tgt : Target

/-- The physical constants `XSec` reads from `Conventions/Constants.h`,
which is outside the excerpt: their values enter as parameters. -/
structure PhysConstants where
  kGF2      : ℝ
  kPi3      : ℝ
  kPionMass : ℝ
  unitsMb   : ℝ

/-- Embedding of `pdg::IsProton` (PDG/PDGUtils, outside the excerpt):
2212 is the PDG code of the proton. -/
def isProton (pdgc : Int) : Bool := pdgc = 2212

/-- Embedding of `ReinDFRPXSec::ValidProcess` (ReinDFRPXSec.cxx:129-135):
true when the process check is skipped or the process is diffractive. -/
def validProcess (i : Interaction) : Bool :=
  if i.skipProcChk then true
  else if i.isDiffractive then true
  else false

/-- A configured `XSecIntegratorI` sub-instance: an identity (so a trace
can tell instances apart) and its `Integrate` entry point, whose numeric
body is outside the excerpt. -/
structure Integrator where
  id        : Nat
  integrate : Interaction → ℝ

/-- The state `LoadConfig` stores into a `ReinDFRPXSec` instance. -/
structure ReinDFRPXSec where
  fMa             : ℝ
  fBeta           : ℝ
  fXSecIntegrator : Integrator

/-- Embedding of `ReinDFRPXSec::XSec` (ReinDFRPXSec.cxx:55-121) over real
numbers.  An interaction failing `ValidProcess` or `ValidKinematics`
returns the value 0 through the ordinary `double` return channel; the
Jacobian for a phase-space change (`utils::kinematics::Jacobian`) is
outside the excerpt and enters as the parameter `jacobian`. -/
noncomputable def XSec (consts : PhysConstants)
    (jacobian : Interaction → KinePhaseSpace → KinePhaseSpace → ℝ)
    (alg : ReinDFRPXSec) (i : Interaction) (kps : KinePhaseSpace) : ℝ :=
  if !(validProcess i) then 0
  else if !(i.validKinematics) then 0
  else
    let E := i.probeE
    let x := i.x
    let y := i.y
    let M := i.tgt.hitNucMass
    let Q2 := 2 * x * y * M * E
    let Gf := consts.kGF2 * M / (16 * consts.kPi3)
    let fp := 0.93 * consts.kPionMass
    let fp2 := fp ^ 2
    let Epi := y * E
    let sqrtEpi := Real.sqrt (max 0 Epi)
    let b := alg.fBeta
    let ma2 := alg.fMa ^ 2
    let propg := (ma2 / (ma2 + Q2)) ^ 2
    let sTot := if sqrtEpi > 0 then 12 * (2 + 1 / sqrtEpi) * consts.unitsMb
      else 0
    let sTot2 := sTot ^ 2
    let tFac := Real.exp (-b * i.t)
    let xsec0 := Gf * E * fp2 * (1 - y) * propg * sTot2 * tFac
    let xsec1 := if kps ≠ KinePhaseSpace.xytfE then
        xsec0 * jacobian i KinePhaseSpace.xytfE kps
      else xsec0
    if i.assumeFreeNucleon then xsec1
    else
      let nNucl : ℝ := if isProton i.tgt.hitNucPdg then
          (i.tgt.protonCount : ℝ)
        else (i.tgt.neutronCount : ℝ)
      xsec1 * nNucl

/-- Observable actions on the algorithm side: a `SubAlg` resolution during
configuration, or an `Integrate` call delegated to a sub-instance. -/
inductive AlgEvent where
  | resolveSubAlg (name : String) (id : Nat)
  | integrateCall (id : Nat)
  deriving DecidableEq, Repr

/-- Recogniser for resolution events. -/
def AlgEvent.isResolve : AlgEvent → Bool
  | .resolveSubAlg _ _ => true
  | _ => false

/-- Failure modes of `LoadConfig`: a required configuration parameter
missing, or the aborted process of a failed C `assert`. -/
inductive LoadFailure where
  | configMissing
  | assertFailure
  deriving DecidableEq, Repr

/-- Modelled from the spec: `Registry::GetDoubleDef` is not under `src/`;
it returns the value stored under the key when present, else the supplied
default. -/
def getDoubleDef (cfg : ConfigModel.ConfigSet ℝ) (key : String)
    (dflt : ℝ) : ℝ :=
  (cfg.find key).getD dflt

/-- Modelled from the spec: `Registry::GetDouble` on the global parameter
list is not under `src/`; per the error taxonomy a required parameter
absent from the consulted entry is a ConfigMissing failure. -/
def registryGetDouble (cfg : ConfigModel.ConfigSet ℝ) (key : String) :
    Except LoadFailure ℝ :=
  match cfg.find key with
  | some v => .ok v
  | none => .error .configMissing

/-- A sub-algorithm as returned by `Algorithm::SubAlg`: either one that
implements the `XSecIntegratorI` interface or one that does not. -/
inductive SubAlgorithm where
  | integrator (ig : Integrator)
  | nonIntegrator (name : String)

/-- The `dynamic_cast<const XSecIntegratorI *>` applied to a
sub-algorithm: the integrator itself, or the null pointer. -/
def dynCastToIntegrator : SubAlgorithm → Option Integrator
  | .integrator ig => some ig
  | .nonIntegrator _ => none

/-- Embedding of `ReinDFRPXSec::LoadConfig` (ReinDFRPXSec.cxx:149-160):
fetch `Ma` and `beta` from the instance configuration with the global
`DFR-Ma` / `DFR-Beta` values as defaults (the default expressions are
evaluated eagerly, as C++ call arguments are), then resolve the
`XSec-Integrator` sub-algorithm once, downcast it, and `assert` the cast
succeeded — a failed assert aborts the process, modelled as
`assertFailure`.  The event list records the single `SubAlg`
resolution. -/
def loadConfig (fConfig gc : ConfigModel.ConfigSet ℝ)
    (subAlg : SubAlgorithm) :
    Except LoadFailure (ReinDFRPXSec × List AlgEvent) :=
  match registryGetDouble gc "DFR-Ma" with
  | .error e => .error e
  | .ok gma =>
    match registryGetDouble gc "DFR-Beta" with
    | .error e => .error e
    | .ok gbeta =>
      let fMa := getDoubleDef fConfig "Ma" gma
      let fBeta := getDoubleDef fConfig "beta" gbeta
      match dynCastToIntegrator subAlg with
      | none => .error .assertFailure
      | some ig =>
        .ok (⟨fMa, fBeta, ig⟩, [AlgEvent.resolveSubAlg "XSec-Integrator" ig.id])

/-- Embedding of `ReinDFRPXSec::Integral` (ReinDFRPXSec.cxx:123-127): pure
delegation to the stored `fXSecIntegrator`; the emitted event records
which integrator instance was used, and no resolution happens. -/
def Integral (alg : ReinDFRPXSec) (i : Interaction) : ℝ × List AlgEvent :=
  (alg.fXSecIntegrator.integrate i,
   [AlgEvent.integrateCall alg.fXSecIntegrator.id])

/-- Event trace of a configured instance answering a list of `Integral`
calls. -/
def integralRun (alg : ReinDFRPXSec) (is : List Interaction) :
    List AlgEvent :=
  is.flatMap fun i => (Integral alg i).2

/-- Every event of an `Integral` run is a delegation to the stored
integrator. -/
lemma integralRun_events (alg : ReinDFRPXSec) (is : List Interaction) :
    ∀ e ∈ integralRun alg is,
      e = AlgEvent.integrateCall alg.fXSecIntegrator.id := by
  induction is with
  | nil => simp [integralRun]
  | cons i is ih =>
    intro e he
    rw [integralRun, List.flatMap_cons] at he
    rcases List.mem_append.1 he with h | h
    · simpa [Integral] using h
    · exact ih e h

/-- An `Integral` run emits no resolution event. -/
lemma integralRun_no_resolve (alg : ReinDFRPXSec) (is : List Interaction) :
    (integralRun alg is).filter AlgEvent.isResolve = [] := by
  induction is with
  | nil => simp [integralRun]
  | cons i is ih =>
    rw [integralRun, List.flatMap_cons, List.filter_append]
    rw [integralRun] at ih
    rw [ih]
    simp [Integral, AlgEvent.isResolve]

/-- A non-diffractive interaction with the process check not skipped:
`ValidProcess` rejects it. -/
def nonDiffractiveInteraction : Interaction :=
  ⟨false, false, false, true, 10, 0.2, 0.5, 0.1, ⟨1, 2212, 26, 30⟩⟩

/-- An interaction passing the process check but failing the kinematics
check. -/
def badKinematicsInteraction : Interaction :=
  ⟨false, true, false, false, 10, 0.2, 0.5, 0.1, ⟨1, 2212, 26, 30⟩⟩

/-- Counterexample to C5: `XSec` maps an invalid-process interaction to
the silently returned value 0 through its ordinary `double` return
channel — the claim that no error condition is encoded as 0 is false on
the code (ReinDFRPXSec.cxx:58 is `return 0.;`). -/
theorem C5_invalid_process_returns_zero_counterexample :
    validProcess nonDiffractiveInteraction = false ∧
    XSec ⟨1, 1, 1, 1⟩ (fun _ _ _ => 1) ⟨1, 1, ⟨0, fun _ => 0⟩⟩
      nonDiffractiveInteraction KinePhaseSpace.xytfE = 0 := by
  constructor
  · rfl
  · simp [XSec, validProcess, nonDiffractiveInteraction]

/-- C5 as amended: `XSec` encodes every precondition violation — an
interaction failing `ValidProcess` or failing `ValidKinematics` — as the
returned value 0; there is no separate failure channel. -/
theorem C5_precondition_violation_encoded_as_zero (consts : PhysConstants)
    (jacobian : Interaction → KinePhaseSpace → KinePhaseSpace → ℝ)
    (alg : ReinDFRPXSec) (i : Interaction) (kps : KinePhaseSpace)
    (h : validProcess i = false ∨ i.validKinematics = false) :
    XSec consts jacobian alg i kps = 0 := by
  rcases h with h | h
  · simp [XSec, h]
  · by_cases hv : validProcess i
    · simp [XSec, hv, h]
    · simp [XSec, hv]

/-- Witness for the amended C5 at a concrete input: an interaction
failing the kinematics check evaluates to 0. -/
theorem C5_precondition_violation_encoded_as_zero_witness :
    XSec ⟨1, 1, 1, 1⟩ (fun _ _ _ => 1) ⟨1, 1, ⟨0, fun _ => 0⟩⟩
      badKinematicsInteraction KinePhaseSpace.xytfE = 0 :=
  C5_precondition_violation_encoded_as_zero ⟨1, 1, 1, 1⟩ (fun _ _ _ => 1)
    ⟨1, 1, ⟨0, fun _ => 0⟩⟩ badKinematicsInteraction KinePhaseSpace.xytfE
    (Or.inr rfl)

/-- C7: when configuration succeeds, the `XSec-Integrator` sub-instance
was resolved exactly once — no `Integral` call resolves again — every
`Integral` call delegates to the same stored instance, and that stored
instance is exactly the one the configuration-time downcast produced. -/
theorem C7_integrator_resolved_once_and_reused
    (fConfig gc : ConfigModel.ConfigSet ℝ) (subAlg : SubAlgorithm)
    (p : ReinDFRPXSec × List AlgEvent)
    (h : loadConfig fConfig gc subAlg = .ok p) (is : List Interaction) :
    ((p.2 ++ integralRun p.1 is).filter AlgEvent.isResolve).length = 1 ∧
    (∀ e ∈ integralRun p.1 is,
      e = AlgEvent.integrateCall p.1.fXSecIntegrator.id) ∧
    dynCastToIntegrator subAlg = some p.1.fXSecIntegrator := by
  unfold loadConfig at h
  split at h
  · exact Except.noConfusion h
  · split at h
    · exact Except.noConfusion h
    · split at h
      · exact Except.noConfusion h
      · rename_i hma hbeta ig hcast
        injection h with h2
        subst h2
        refine ⟨?_, integralRun_events _ is, by simpa using hcast⟩
        rw [List.filter_append, integralRun_no_resolve]
        simp [AlgEvent.isResolve]

/-- Witness for C7 at a concrete configuration: one resolution, two
`Integral` calls on the stored instance. -/
theorem C7_integrator_resolved_once_and_reused_witness :
    ((([AlgEvent.resolveSubAlg "XSec-Integrator" 7]
          ++ integralRun ⟨104, 1, ⟨7, fun _ => 0⟩⟩
              [badKinematicsInteraction, nonDiffractiveInteraction]).filter
        AlgEvent.isResolve).length = 1 ∧
     (∀ e ∈ integralRun ⟨104, 1, ⟨7, fun _ => 0⟩⟩
          [badKinematicsInteraction, nonDiffractiveInteraction],
        e = AlgEvent.integrateCall
          (⟨104, 1, ⟨7, fun _ => 0⟩⟩ : ReinDFRPXSec).fXSecIntegrator.id) ∧
     dynCastToIntegrator (SubAlgorithm.integrator ⟨7, fun _ => 0⟩)
       = some (⟨104, 1, ⟨7, fun _ => 0⟩⟩ : ReinDFRPXSec).fXSecIntegrator) :=
  C7_integrator_resolved_once_and_reused ⟨[("Ma", 104), ("beta", 1)]⟩
    ⟨[("DFR-Ma", 104), ("DFR-Beta", 1)]⟩
    (SubAlgorithm.integrator ⟨7, fun _ => 0⟩)
    (⟨104, 1, ⟨7, fun _ => 0⟩⟩, [AlgEvent.resolveSubAlg "XSec-Integrator" 7])
    rfl [badKinematicsInteraction, nonDiffractiveInteraction]

/-- C10: with the global `DFR-Ma` / `DFR-Beta` parameters present, if the
configured `XSec-Integrator` sub-algorithm does not implement the
integrator interface the downcast yields null and `LoadConfig` aborts
through the failed `assert` (not a typed error return); and whenever the
sub-algorithm is an `XSecIntegratorI`, the assertion holds and the stored
`fXSecIntegrator` is that (non-null) instance. -/
theorem C10_integrator_downcast_asserted
    (fConfig gc : ConfigModel.ConfigSet ℝ) (subAlg : SubAlgorithm)
    (gma gbeta : ℝ)
    (hma : gc.find "DFR-Ma" = some gma)
    (hbeta : gc.find "DFR-Beta" = some gbeta) :
    (dynCastToIntegrator subAlg = none →
      loadConfig fConfig gc subAlg = .error .assertFailure) ∧
    (∀ ig, subAlg = SubAlgorithm.integrator ig →
      loadConfig fConfig gc subAlg =
        .ok (⟨getDoubleDef fConfig "Ma" gma,
              getDoubleDef fConfig "beta" gbeta, ig⟩,
             [AlgEvent.resolveSubAlg "XSec-Integrator" ig.id])) := by
  constructor
  · intro hcast
    unfold loadConfig registryGetDouble
    rw [hma, hbeta]
    simp [hcast]
  · intro ig hig
    subst hig
    unfold loadConfig registryGetDouble
    rw [hma, hbeta]
    simp [dynCastToIntegrator]

/-- Witness for C10 at concrete configurations: a non-integrator
sub-algorithm aborts via the assert; an integrator sub-algorithm is stored
non-null. -/
theorem C10_integrator_downcast_asserted_witness :
    (loadConfig ⟨[]⟩ ⟨[("DFR-Ma", 104), ("DFR-Beta", 1)]⟩
        (SubAlgorithm.nonIntegrator "genie::DFRKinematicsGenerator")
      = .error .assertFailure) ∧
    (loadConfig ⟨[]⟩ ⟨[("DFR-Ma", 104), ("DFR-Beta", 1)]⟩
        (SubAlgorithm.integrator ⟨7, fun _ => 0⟩)
      = .ok (⟨getDoubleDef ⟨[]⟩ "Ma" 104, getDoubleDef ⟨[]⟩ "beta" 1,
              ⟨7, fun _ => 0⟩⟩,
             [AlgEvent.resolveSubAlg "XSec-Integrator" 7])) :=
  ⟨(C10_integrator_downcast_asserted ⟨[]⟩
      ⟨[("DFR-Ma", 104), ("DFR-Beta", 1)]⟩
      (SubAlgorithm.nonIntegrator "genie::DFRKinematicsGenerator")
      104 1 rfl rfl).1 rfl,
   (C10_integrator_downcast_asserted ⟨[]⟩
      ⟨[("DFR-Ma", 104), ("DFR-Beta", 1)]⟩
      (SubAlgorithm.integrator ⟨7, fun _ => 0⟩)
      104 1 rfl rfl).2 ⟨7, fun _ => 0⟩ rfl⟩

end ReinSehgal

